import Mathlib

/-!
Verification of the `MusicDownload` pipeline against its specification.

The development shallowly embeds the relevant parts of
`music_download/pipeline_manager.py` and `music_download/quality_validator.py`:

* Python dicts become association lists (`List (String × _)`) with
  dict-style lookup (`List.lookup`) and dict-style assignment
  (`dictUpdate`: replace in place when the key exists, append otherwise);
* the file system is a function `String → Option String` giving each
  path's current MD5 content hash (`none` means the file is missing);
* code that can raise returns `Except PyErr _`, where `PyErr` names the
  Python exception classes that matter here;
* a `Processor` is a function `String → Except PyErr Unit` (its return
  value is never inspected by `process_file`);
* `process_batch`'s thread pool is modelled by sequential execution of
  the submitted `process_file` calls in submission order, which is what
  the futures list yields.
-/

/-- The `FileState` dataclass of `pipeline_manager.py` (lines 18-26).
Field order and defaults follow the Python source; note that the
dataclass has a field `validation_extracted` but no field
`validated_extracted`. `last_processed` (a Python timestamp) is a `Nat`. -/
structure FileState where
  hash : String
  last_processed : Nat
  features_extracted : Bool := false
  standardized : Bool := false
  validated : Bool := false
  validation_extracted : Bool := false
  metadata_extracted : Bool := false
deriving Repr, DecidableEq

/-- Model of `self.state`: the dict `str(file_path) ↦ FileState`, as an association
list with at most one binding per key. -/
def PState : Type := List (String × FileState)

/-- Python dict assignment `d[k] = v`: replace the binding in place when
the key is present, append a new binding otherwise. -/
def dictUpdate {β : Type} (d : List (String × β)) (k : String) (v : β) :
    List (String × β) :=
  if d.any (fun p => p.1 == k) then
    d.map (fun p => if p.1 = k then (k, v) else p)
  else
    d ++ [(k, v)]

/-- The Python exceptions this development distinguishes. -/
inductive PyErr where
  | attributeError
  | fileNotFound
  | jsonDecodeError
  | typeError
  | valueError
deriving Repr, DecidableEq

/-- Model of `getattr(state, attr)` restricted to the Bool-valued flag attributes of
`FileState`; `none` models `AttributeError`. The attribute set is exactly
the dataclass's flag fields: there is no attribute `validated_extracted`
and no attribute `standardized_extracted`. -/
def getattrFlag (s : FileState) (attr : String) : Option Bool :=
  if attr == "features_extracted" then some s.features_extracted
  else if attr == "standardized" then some s.standardized
  else if attr == "validated" then some s.validated
  else if attr == "validation_extracted" then some s.validation_extracted
  else if attr == "metadata_extracted" then some s.metadata_extracted
  else none

/-- Model of `PipelineManager.needs_processing` (lines 97-108).
`fs` gives each existing file's current content hash (`get_file_hash`);
calling `get_file_hash` on a missing file raises. The final line of the
Python is `not getattr(state, f"{phase}_extracted")`, so the attribute
looked up is `phase ++ "_extracted"`. -/
def needs_processing (st : PState) (fs : String → Option String)
    (file phase : String) : Except PyErr Bool :=
  match List.lookup file st with
  | none => .ok true
  | some s =>
    match fs file with
    | none => .error .fileNotFound
    | some current_hash =>
      if current_hash ≠ s.hash then .ok true
      else
        match getattrFlag s (phase ++ "_extracted") with
        | none => .error .attributeError
        | some b => .ok !b

/-- Model of `PipelineManager.process_file` (lines 118-157): returns the Bool the
Python returns together with the (possibly updated) state dict. The whole
body is inside `try/except`, so any exception yields `false` with the
state unchanged. On success the new `FileState` is built exactly as on
lines 138-145: each flag is `phase == <name> or (file_key in self.state
and self.state[file_key].<flag>)`; `validation_extracted` is not passed,
so it takes its default `false`. -/
def process_file (st : PState) (fs : String → Option String)
    (proc : String → Except PyErr Unit) (now : Nat)
    (file phase : String) : Bool × PState :=
  match fs file with
  | none => (false, st)
  | some _ =>
    match needs_processing st fs file phase with
    | .error _ => (false, st)
    | .ok false => (false, st)
    | .ok true =>
      match proc file with
      | .error _ => (false, st)
      | .ok _ =>
        match fs file with
        | none => (false, st)
        | some h =>
          let prev := List.lookup file st
          let newState : FileState :=
            { hash := h
              last_processed := now
              features_extracted :=
                phase == "features" || prev.elim false (fun p => p.features_extracted)
              standardized :=
                phase == "standardized" || prev.elim false (fun p => p.standardized)
              validated :=
                phase == "validated" || prev.elim false (fun p => p.validated)
              metadata_extracted :=
                phase == "metadata" || prev.elim false (fun p => p.metadata_extracted) }
          (true, dictUpdate st file newState)

/-- Holds exactly when the `Except` is `.ok`: the success of one
`processor.process_file` call. -/
def procOk (r : Except PyErr Unit) : Bool :=
  match r with
  | .ok _ => true
  | .error _ => false

/-- Model of `PipelineManager.process_batch` (lines 159-195): one `process_file`
future per input path, results collected in submission order
(`[f.result() for f in futures]`). -/
def process_batch (st : PState) (fs : String → Option String)
    (proc : String → Except PyErr Unit) (now : Nat)
    (files : List String) (phase : String) : List Bool × PState :=
  match files with
  | [] => ([], st)
  | f :: rest =>
    let r := process_file st fs proc now f phase
    let rs := process_batch r.2 fs proc now rest phase
    (r.1 :: rs.1, rs.2)

/-- JSON values, as `json.load` returns them. -/
inductive JVal where
  | jnull
  | jbool (b : Bool)
  | jnum (q : ℚ)
  | jstr (s : String)
  | jarr (xs : List JVal)
  | jobj (fields : List (String × JVal))

/-- What can be on disk at `pipeline_state.json` when `_load_state` runs:
the file is missing, or `json.load` rejects its text
(`json.JSONDecodeError`), or `json.load` parses it to a JSON value. -/
inductive StateFileContent where
  | missing
  | unparseable
  | parsed (doc : JVal)

/-- The keyword parameters `FileState(...)` accepts: the dataclass's
fields, in declaration order. -/
def fileStateFields : List String :=
  ["hash", "last_processed", "features_extracted", "standardized",
   "validated", "validation_extracted", "metadata_extracted"]

/-- A `FileState` as `FileState(**state)` builds it from decoded JSON:
a Python dataclass performs no runtime type checking, so every field
holds whatever JSON value the file supplied. -/
structure FileStateJ where
  hash : JVal
  last_processed : JVal
  features_extracted : JVal
  standardized : JVal
  validated : JVal
  validation_extracted : JVal
  metadata_extracted : JVal

/-- Model of `FileState(**state)` on keyword arguments decoded from JSON: an
unexpected keyword or a missing required argument (`hash`,
`last_processed`) raises `TypeError`; defaulted fields fall back to
`False`. -/
def mkFileStateJ (kwargs : List (String × JVal)) : Except PyErr FileStateJ :=
  if kwargs.all (fun p => fileStateFields.contains p.1) then
    match List.lookup "hash" kwargs, List.lookup "last_processed" kwargs with
    | some h, some lp =>
      .ok { hash := h
            last_processed := lp
            features_extracted := (List.lookup "features_extracted" kwargs).getD (.jbool false)
            standardized := (List.lookup "standardized" kwargs).getD (.jbool false)
            validated := (List.lookup "validated" kwargs).getD (.jbool false)
            validation_extracted := (List.lookup "validation_extracted" kwargs).getD (.jbool false)
            metadata_extracted := (List.lookup "metadata_extracted" kwargs).getD (.jbool false) }
    | _, _ => .error .typeError
  else .error .typeError

/-- Model of `PipelineManager._load_state` (lines 69-78): returns `{}` when the
file is missing; otherwise `json.load` then the dict comprehension
`{path: FileState(**state) for path, state in state_dict.items()}`.
There is no `try/except` in `_load_state`, so a decode error, a
non-object document (`.items()` raises `AttributeError`), a non-object
entry or a bad set of keyword arguments all propagate to the caller. -/
def load_state (content : StateFileContent) :
    Except PyErr (List (String × FileStateJ)) :=
  match content with
  | .missing => .ok []
  | .unparseable => .error .jsonDecodeError
  | .parsed (.jobj entries) =>
    entries.mapM (fun p =>
      match p.2 with
      | .jobj kw => (mkFileStateJ kw).map (fun s => (p.1, s))
      | _ => .error .typeError)
  | .parsed _ => .error .attributeError

/-- The `required_fields` set of `PipelineManager._validate_state`
(lines 217-227); note it does not include `validation_extracted`. -/
def required_fields : List String :=
  ["hash", "last_processed", "features_extracted", "standardized",
   "validated", "metadata_extracted"]

/-- Model of `PipelineManager._validate_state`: `hasattr(file_state, field)` for
each required field of each entry. Every successfully constructed
`FileState` has all dataclass attributes, so the check depends only on
the two field lists. -/
def validate_state (st : List (String × FileStateJ)) : Bool :=
  st.all (fun _e => required_fields.all (fun fld => fileStateFields.contains fld))

/-- The state initialization in `PipelineManager.__init__` (lines 42-47):
`_load_state`, then `_validate_state` with a reset to `{}` on failure.
`_load_state` itself is not guarded, so its exceptions escape
`__init__`. -/
def init_state (content : StateFileContent) :
    Except PyErr (List (String × FileStateJ)) :=
  match load_state content with
  | .error e => .error e
  | .ok st => .ok (if validate_state st then st else [])

/-- JSON rendering of a Python bool. -/
def jsonOfBool (b : Bool) : String := if b then "true" else "false"

/-- The object `_save_state` (lines 80-95) serializes for one entry:
the six keys written on lines 83-90, in that order (`validation_extracted`
is not persisted). Whitespace/indentation of `json.dump(indent=4)` is
abstracted away. -/
def serializeFileState (s : FileState) : String :=
  "\x7b\"hash\": \"" ++ s.hash ++ "\", \"last_processed\": "
    ++ toString s.last_processed
    ++ ", \"features_extracted\": " ++ jsonOfBool s.features_extracted
    ++ ", \"standardized\": " ++ jsonOfBool s.standardized
    ++ ", \"validated\": " ++ jsonOfBool s.validated
    ++ ", \"metadata_extracted\": " ++ jsonOfBool s.metadata_extracted
    ++ "\x7d"

/-- The full serialized state map `json.dump` writes. -/
def serializeState (st : PState) : String :=
  "\x7b"
    ++ String.intercalate ", "
      (st.map (fun p => "\"" ++ p.1 ++ "\": " ++ serializeFileState p.2))
    ++ "\x7d"

/-- File-system operations at the granularity `_save_state` performs them:
`open(path, "w")` truncates the file to empty, a write appends data to
the (open) file, and `rename` atomically replaces the destination. -/
inductive FsOp where
  | openTrunc (path : String)
  | writeData (path : String) (data : String)
  | renameFile (src : String) (dst : String)

/-- Effect of one operation on the disk (path ↦ content). -/
def applyOp (disk : String → Option String) (op : FsOp) :
    String → Option String :=
  match op with
  | .openTrunc p => fun q => if q = p then some "" else disk q
  | .writeData p d => fun q => if q = p then some (((disk p).getD "") ++ d) else disk q
  | .renameFile s d => fun q =>
    if q = d then disk s else if q = s then none else disk q

/-- Effect of a whole operation sequence; a process killed after `n`
operations leaves the disk at `applyOps disk (ops.take n)`. -/
def applyOps (disk : String → Option String) (ops : List FsOp) :
    String → Option String :=
  ops.foldl applyOp disk

/-- The operations `_save_state` issues: `open(self.state_file, "w")`
followed by `json.dump` into it — a truncating in-place rewrite of
`pipeline_state.json`, with no temporary file and no rename. -/
def save_state_ops (st : PState) : List FsOp :=
  [.openTrunc "pipeline_state.json",
   .writeData "pipeline_state.json" (serializeState st)]

/-- An operation sequence of the write-to-temp-then-rename shape the
claim requires: every write goes to a temporary path, which is then
renamed onto the final path. -/
def isAtomicReplace (ops : List FsOp) (final : String) : Bool :=
  match ops with
  | [.openTrunc t1, .writeData t2 _, .renameFile t3 d] =>
    t1 == t2 && t2 == t3 && d == final && !(t1 == final)
  | _ => false

/-- The locks of `PipelineManager`: the only lock the class creates is
`self._progress_lock` (line 50). -/
inductive LockId where
  | progressLock
deriving Repr, DecidableEq

/-- The successful path of `process_file` (lines 121-153) as the sequence
of its shared-state-relevant steps, each in source order: the existence
check, the `needs_processing` read, the processor call, the upsert
`self.state[file_key] = FileState(...)`, the `self._save_state()` call,
and the progress update inside `with self._progress_lock`. -/
inductive PipelineStep where
  | checkFileExists
  | readNeedsProcessing
  | callProcessor
  | upsertFileState
  | saveStateToDisk
  | acquire (l : LockId)
  | incrementProgress
  | release (l : LockId)
deriving Repr, DecidableEq

/-- The successful execution path of `process_file`, step by step. -/
def process_file_steps : List PipelineStep :=
  [.checkFileExists, .readNeedsProcessing, .callProcessor,
   .upsertFileState, .saveStateToDisk,
   .acquire .progressLock, .incrementProgress, .release .progressLock]

/-- Locks held when the step at index `i` runs: the acquires minus the
releases among the first `i` steps. -/
def locksHeldAt (steps : List PipelineStep) (i : Nat) : List LockId :=
  (steps.take i).foldl
    (fun held s =>
      match s with
      | .acquire l => l :: held
      | .release l => held.erase l
      | _ => held) []

/-- The numeric metrics dict one audio chunk yields
(`_process_audio_chunk`); numeric values are modelled as rationals. -/
def ChunkMetrics : Type := List (String × ℚ)

/-- Lines 181-182 of `quality_validator.py` for one key:
`values = [m[key] for m in metrics_list if key in m]` followed by
`float(np.mean(values))` — the arithmetic mean over the chunks that
contain the key. -/
def keyMean (ms : List ChunkMetrics) (key : String) : ℚ :=
  let values := ms.filterMap (fun m => List.lookup key m)
  values.sum / (values.length : ℚ)

/-- Model of `AudioQualityValidator._aggregate_metrics` (lines 173-186): empty
input gives `{}`; otherwise one aggregated entry per key of the first
chunk's dict, in order, each holding the mean of that key's values. (The
`except` around the mean never fires here: a key of `metrics_list[0]`
always has at least one value.) -/
def aggregate_metrics (ms : List ChunkMetrics) : List (String × ℚ) :=
  match ms with
  | [] => []
  | m0 :: rest =>
    (m0.map Prod.fst).foldl
      (fun acc key => acc ++ [(key, keyMean (m0 :: rest) key)]) []

/-- The chunk loop of `check_audio_quality` (lines 117-141): each chunk
is analyzed in turn and its metrics dict accumulated; a chunk whose
analysis raises aborts the whole file, so a returned list holds the
metrics of exactly the chunks that did not error. -/
def run_chunks {α : Type} (chunks : List α)
    (f : α → Except PyErr ChunkMetrics) : Except PyErr (List ChunkMetrics) :=
  chunks.mapM f

/-- The dict `_worker_process` returns for one file: it always carries
`passed`, `filename` and `metrics` (both in `process_file`'s normal and
error returns and in `_worker_process`'s own fallback). -/
structure WorkerResult where
  passed : Bool
  filename : String
  metrics : List (String × ℚ)

/-- The `summary` sub-dict of `validate_dataset`'s result. -/
structure ValidationSummary where
  total_files : Nat
  passed_files : Nat
  failed_files : Nat
  average_metrics : List (String × ℚ)

/-- The dict `validate_dataset` returns: `files` and `summary`. -/
structure ValidationResults where
  files : List (String × WorkerResult)
  summary : ValidationSummary

/-- One iteration of the result-aggregation loop of `validate_dataset`
(lines 252-258): a passed result only bumps `passed_files`; a failed
result bumps `failed_files` and is stored in `files` under its
`filename`. -/
def vd_step (vr : ValidationResults) (r : WorkerResult) : ValidationResults :=
  if r.passed then
    { vr with summary := { vr.summary with passed_files := vr.summary.passed_files + 1 } }
  else
    { files := dictUpdate vr.files r.filename r
      summary := { vr.summary with failed_files := vr.summary.failed_files + 1 } }

/-- The result-aggregation loop (lines 250-258), starting from the
zeroed `validation_results` with `total_files` already set (line 237). -/
def vd_aggregate (total : Nat) (results : List WorkerResult) : ValidationResults :=
  results.foldl vd_step
    { files := [],
      summary := { total_files := total, passed_files := 0, failed_files := 0,
                   average_metrics := [] } }

/-- Lines 260-265: `all_metrics` collects each truthy (non-empty)
`metrics` dict, and when any exist `average_metrics` is their
aggregation; nothing else of the result is touched. -/
def vd_finalize (acc : ValidationResults) (results : List WorkerResult) :
    ValidationResults :=
  let all_metrics := (results.filter (fun r => !r.metrics.isEmpty)).map
    (fun r => r.metrics)
  if all_metrics.isEmpty then acc
  else { acc with summary := { acc.summary with
          average_metrics := aggregate_metrics all_metrics } }

/-- Model of `AudioQualityValidator.validate_dataset` (lines 202-267) over an
explicit file list: `total_files` is set to the input length, the empty
input returns early with the zeroed results (lines 239-241), otherwise
one worker result per file (`pool.imap` keeps input order) is aggregated
and the average metrics computed. -/
def validate_dataset (audio_files : List String)
    (worker : String → WorkerResult) : ValidationResults :=
  if audio_files.length = 0 then
    { files := [],
      summary := { total_files := 0, passed_files := 0, failed_files := 0,
                   average_metrics := [] } }
  else
    vd_finalize (vd_aggregate audio_files.length (audio_files.map worker))
      (audio_files.map worker)

/-- C5: the claim says a missing state file yields the empty state (true)
and that malformed stored content is logged and replaced by the empty
state instead of raising (false): `_load_state` has no exception
handling, so undecodable text raises `json.JSONDecodeError`, an entry
that is not an object of valid `FileState` kwargs raises `TypeError`,
and a non-object document raises `AttributeError`, all escaping
`__init__`; the `_validate_state` fallback only runs after a fully
successful load. -/
theorem c5_init_state_raises_on_malformed :
    init_state .missing = .ok []
    ∧ init_state .unparseable = .error .jsonDecodeError
    ∧ init_state (.parsed (.jobj [("a.wav", .jobj [])])) = .error .typeError
    ∧ init_state (.parsed (.jarr [])) = .error .attributeError :=
  ⟨rfl, rfl, rfl, rfl⟩

/-- C7 (amended): `_save_state` rewrites `pipeline_state.json` in place —
a truncating open followed by the serialized write, not a
write-to-temp-then-rename — so an uninterrupted save leaves exactly the
serialized map, while a kill between the truncating open and the
completed write leaves the file empty. -/
theorem c7_save_state_in_place (st : PState) (disk : String → Option String) :
    applyOps disk (save_state_ops st) "pipeline_state.json"
      = some (serializeState st)
    ∧ applyOps disk ((save_state_ops st).take 1) "pipeline_state.json" = some ""
    ∧ isAtomicReplace (save_state_ops st) "pipeline_state.json" = false :=
  ⟨rfl, rfl, rfl⟩

/-- Counterexample for C7 as stated: with one commit (`a.wav`) in the
store, killing the process after the truncating open and before the
write leaves the state file holding `""`, which is the serialization
neither of the committed map nor of the empty map (it is not even
parseable JSON); and the operation sequence is not of the
write-to-temp-then-rename shape. -/
theorem c7_save_state_not_atomic_counterexample :
    applyOps (fun _ => none)
      ((save_state_ops [("a.wav", { hash := "H1", last_processed := 0, validated := true })]).take 1)
      "pipeline_state.json" = some ""
    ∧ serializeState [("a.wav", { hash := "H1", last_processed := 0, validated := true })] ≠ ""
    ∧ serializeState ([] : PState) ≠ ""
    ∧ isAtomicReplace
        (save_state_ops [("a.wav", { hash := "H1", last_processed := 0, validated := true })])
        "pipeline_state.json" = false :=
  ⟨rfl, by decide, by decide, rfl⟩

/-- C9: the claim says every upsert of a file's state goes through a
single writer critical section. In `process_file`'s successful path the
state-dict upsert (step 3) and the state-file save (step 4) run with no
lock held; the only critical section in the class guards the progress
counter (step 6). Two concurrent `process_file` calls therefore have no
mutual exclusion around their read-modify-write of the shared state. -/
theorem c9_upsert_outside_any_lock :
    process_file_steps.get? 3 = some .upsertFileState
    ∧ locksHeldAt process_file_steps 3 = []
    ∧ process_file_steps.get? 4 = some .saveStateToDisk
    ∧ locksHeldAt process_file_steps 4 = []
    ∧ process_file_steps.get? 6 = some .incrementProgress
    ∧ locksHeldAt process_file_steps 6 = [.progressLock] :=
  ⟨rfl, rfl, rfl, rfl, rfl, rfl⟩

/-- Appending one element per key is the same as mapping over the keys. -/
theorem foldl_append_map {α β : Type} (g : α → β) :
    ∀ (ks : List α) (acc : List β),
      ks.foldl (fun a k => a ++ [g k]) acc = acc ++ ks.map g := by
  intro ks
  induction ks with
  | nil => intro acc; simp
  | cons k rest ih =>
    intro acc
    simp only [List.foldl_cons, List.map_cons]
    rw [ih (acc ++ [g k]), List.append_assoc]
    rfl

/-- In a list of pairs `(k, g k)`, a successful lookup returns `g` of the
key looked up. -/
theorem lookup_map_keyfn {β : Type} (g : String → β) :
    ∀ (ks : List String) (key : String) (v : β),
      List.lookup key (ks.map (fun k => (k, g k))) = some v → v = g key := by
  intro ks
  induction ks with
  | nil => intro key v h; simp at h
  | cons k rest ih =>
    intro key v h
    simp only [List.map_cons, List.lookup_cons] at h
    cases hkk : key == k with
    | true =>
      rw [hkk] at h
      cases h
      rw [eq_of_beq hkk]
    | false =>
      rw [hkk] at h
      exact ih key v h

/-- A `mapM` over `Except` that succeeds returns one output per input. -/
theorem mapM_ok_length {α β : Type} (f : α → Except PyErr β) :
    ∀ (l : List α) (r : List β), l.mapM f = .ok r → r.length = l.length := by
  intro l
  induction l with
  | nil =>
    intro r h
    rw [List.mapM_nil] at h
    cases h
    rfl
  | cons x xs ih =>
    intro r h
    rw [List.mapM_cons] at h
    cases hfx : f x with
    | error e => rw [hfx] at h; simp [Bind.bind, Except.bind] at h
    | ok y =>
      rw [hfx] at h
      cases hrest : xs.mapM f with
      | error e =>
        rw [hrest] at h; simp [Bind.bind, Except.bind] at h
      | ok ys =>
        rw [hrest] at h
        simp only [Bind.bind, Except.bind, pure, Except.pure] at h
        cases h
        simp [ih ys hrest]

/-- A `filterMap` drops nothing when the function succeeds everywhere. -/
theorem length_filterMap_of_isSome {γ δ : Type} (g : γ → Option δ) :
    ∀ (l : List γ), (∀ x ∈ l, (g x).isSome) →
      (l.filterMap g).length = l.length := by
  intro l
  induction l with
  | nil => intro _; rfl
  | cons x xs ih =>
    intro h
    obtain ⟨y, hy⟩ := Option.isSome_iff_exists.mp (h x (List.mem_cons_self x xs))
    rw [List.filterMap_cons, hy]
    simp [ih (fun z hz => h z (List.mem_cons_of_mem x hz))]

/-- C8: when the chunk loop completes (no chunk errored) and the
aggregated metrics contain a key, its value is the arithmetic mean of
that key's per-chunk values; the list aggregated over holds one metrics
dict per analyzed chunk, and for a key present in every chunk the mean
ranges over exactly all of those chunks. -/
theorem c8_aggregate_is_chunk_mean {α : Type} (chunks : List α)
    (f : α → Except PyErr ChunkMetrics) (ms : List ChunkMetrics)
    (key : String) (v : ℚ)
    (hrun : run_chunks chunks f = .ok ms)
    (hlook : List.lookup key (aggregate_metrics ms) = some v) :
    v = (ms.filterMap (fun m => List.lookup key m)).sum
          / ((ms.filterMap (fun m => List.lookup key m)).length : ℚ)
    ∧ ms.length = chunks.length
    ∧ ((∀ m ∈ ms, (List.lookup key m).isSome) →
        (ms.filterMap (fun m => List.lookup key m)).length = ms.length) := by
  refine ⟨?_, mapM_ok_length f chunks ms hrun, length_filterMap_of_isSome _ ms⟩
  cases ms with
  | nil => simp [aggregate_metrics] at hlook
  | cons m0 rest =>
    have hagg : aggregate_metrics (m0 :: rest)
        = (m0.map Prod.fst).map (fun k => (k, keyMean (m0 :: rest) k)) := by
      have h1 : aggregate_metrics (m0 :: rest)
          = (m0.map Prod.fst).foldl
              (fun acc key => acc ++ [(key, keyMean (m0 :: rest) key)]) [] := rfl
      rw [h1,
        foldl_append_map (fun k => (k, keyMean (m0 :: rest) k)) (m0.map Prod.fst) []]
      rfl
    rw [hagg] at hlook
    have := lookup_map_keyfn (fun k => keyMean (m0 :: rest) k)
      (m0.map Prod.fst) key v hlook
    simpa [keyMean] using this

/-- Witness for C8: two chunks, each reporting `rms`; the aggregated
`rms` is the mean `1/2` of the per-chunk values `0` and `1`. -/
theorem c8_aggregate_is_chunk_mean_witness :
    ((1 : ℚ)/2 = ([[("rms", (0 : ℚ))], [("rms", (1 : ℚ))]].filterMap
          (fun m => List.lookup "rms" m)).sum
        / ((([[("rms", (0 : ℚ))], [("rms", (1 : ℚ))]].filterMap
          (fun m => List.lookup "rms" m)).length : ℚ))
    ∧ ([[("rms", (0 : ℚ))], [("rms", (1 : ℚ))]] : List ChunkMetrics).length
        = ([(0 : ℚ), 1] : List ℚ).length
    ∧ ((∀ m ∈ ([[("rms", (0 : ℚ))], [("rms", (1 : ℚ))]] : List ChunkMetrics),
          (List.lookup "rms" m).isSome) →
        (([[("rms", (0 : ℚ))], [("rms", (1 : ℚ))]] : List ChunkMetrics).filterMap
          (fun m => List.lookup "rms" m)).length
          = ([[("rms", (0 : ℚ))], [("rms", (1 : ℚ))]] : List ChunkMetrics).length)) := by
  refine c8_aggregate_is_chunk_mean [(0 : ℚ), 1] (fun q => .ok [("rms", q)])
    [[("rms", (0 : ℚ))], [("rms", (1 : ℚ))]] "rms" ((1 : ℚ)/2) rfl ?_
  norm_num [aggregate_metrics, keyMean, List.lookup_cons, List.filterMap_cons,
    List.sum_cons]

/-- Lookup is unchanged by an in-place replacement of another key. -/
theorem lookup_map_replace_ne {β : Type} (d : List (String × β)) (k f : String)
    (v : β) (hk : k ≠ f) :
    List.lookup k (d.map fun p => if p.1 = f then (f, v) else p) = List.lookup k d := by
  induction d with
  | nil => rfl
  | cons p rest ih =>
    obtain ⟨a, b⟩ := p
    by_cases ha : a = f
    · subst ha
      have hka : (k == a) = false := beq_false_of_ne hk
      simp [List.lookup_cons, hka, ih]
    · have hrepl : (fun p => if p.1 = f then (f, v) else p) (a, b) = (a, b) := by
        simp [ha]
      simp only [List.map_cons, hrepl, List.lookup_cons]
      cases k == a
      · simpa using ih
      · rfl

/-- Lookup is unchanged by appending a binding for another key. -/
theorem lookup_append_single_ne {β : Type} (d : List (String × β)) (k f : String)
    (v : β) (hk : k ≠ f) :
    List.lookup k (d ++ [(f, v)]) = List.lookup k d := by
  induction d with
  | nil =>
    simp [List.lookup_cons, beq_false_of_ne hk]
  | cons p rest ih =>
    obtain ⟨a, b⟩ := p
    simp only [List.cons_append, List.lookup_cons]
    cases k == a
    · simpa using ih
    · rfl

/-- Dict assignment to one key leaves every other key's lookup unchanged. -/
theorem lookup_dictUpdate_ne {β : Type} (d : List (String × β)) (k f : String)
    (v : β) (hk : k ≠ f) :
    List.lookup k (dictUpdate d f v) = List.lookup k d := by
  unfold dictUpdate
  by_cases hc : d.any (fun p => p.1 == f)
  · simp only [hc, if_true]
    exact lookup_map_replace_ne d k f v hk
  · simp only [hc, if_false]
    exact lookup_append_single_ne d k f v hk

/-- Replacing a present key's binding in place makes its lookup the new
value. -/
theorem lookup_map_replace_self {β : Type} (d : List (String × β)) (f : String)
    (v : β) (h : d.any (fun p => p.1 == f) = true) :
    List.lookup f (d.map fun p => if p.1 = f then (f, v) else p) = some v := by
  induction d with
  | nil => simp at h
  | cons p rest ih =>
    obtain ⟨a, b⟩ := p
    by_cases ha : a = f
    · subst ha
      simp [List.lookup_cons]
    · have haf : (a == f) = false := beq_false_of_ne ha
      simp only [List.any_cons] at h
      rw [show ((a, b).1 == f) = false from haf] at h
      simp only [Bool.false_or] at h
      have hfa : (f == a) = false := beq_false_of_ne (Ne.symm ha)
      simp [List.map_cons, ha, List.lookup_cons, hfa, ih h]

/-- Appending a binding for an absent key makes its lookup the new
value. -/
theorem lookup_append_single_self {β : Type} (d : List (String × β)) (f : String)
    (v : β) (h : d.any (fun p => p.1 == f) = false) :
    List.lookup f (d ++ [(f, v)]) = some v := by
  induction d with
  | nil => simp [List.lookup_cons]
  | cons p rest ih =>
    obtain ⟨a, b⟩ := p
    simp only [List.any_cons, Bool.or_eq_false_iff] at h
    have hfa : (f == a) = false :=
      beq_false_of_ne (Ne.symm (ne_of_beq_false h.1))
    simp [List.cons_append, List.lookup_cons, hfa, ih h.2]

/-- Dict assignment makes the assigned key's lookup the new value. -/
theorem lookup_dictUpdate_self {β : Type} (d : List (String × β)) (f : String)
    (v : β) : List.lookup f (dictUpdate d f v) = some v := by
  unfold dictUpdate
  cases hc : d.any (fun p => p.1 == f)
  · simp only [hc, Bool.false_eq_true, if_false]
    exact lookup_append_single_self d f v hc
  · simp only [hc, if_true]
    exact lookup_map_replace_self d f v hc

/-- A key is present after a dict assignment exactly when it is the
assigned key or was present before. -/
theorem lookup_dictUpdate_isSome {β : Type} (d : List (String × β)) (k f : String)
    (v : β) :
    (List.lookup k (dictUpdate d f v)).isSome = true
      ↔ (k = f ∨ (List.lookup k d).isSome = true) := by
  by_cases hk : k = f
  · subst hk
    simp [lookup_dictUpdate_self]
  · rw [lookup_dictUpdate_ne d k f v hk]
    simp [hk]

/-- Invariants of the result-aggregation loop: `total_files` is never
touched, each result bumps exactly one of the two counters, and a
filename is a key of `files` exactly when it was already one or some
aggregated result failed under that filename. -/
theorem vd_fold_props :
    ∀ (results : List WorkerResult) (vr : ValidationResults),
      (results.foldl vd_step vr).summary.total_files = vr.summary.total_files
      ∧ (results.foldl vd_step vr).summary.passed_files
          + (results.foldl vd_step vr).summary.failed_files
          = vr.summary.passed_files + vr.summary.failed_files + results.length
      ∧ ∀ name, (List.lookup name (results.foldl vd_step vr).files).isSome = true
          ↔ ((List.lookup name vr.files).isSome = true
              ∨ ∃ r ∈ results, r.passed = false ∧ r.filename = name) := by
  intro results
  induction results with
  | nil =>
    intro vr
    refine ⟨rfl, by simp, ?_⟩
    intro name
    simp
  | cons r rest ih =>
    intro vr
    simp only [List.foldl_cons]
    obtain ⟨ih1, ih2, ih3⟩ := ih (vd_step vr r)
    refine ⟨?_, ?_, ?_⟩
    · rw [ih1]
      cases hp : r.passed <;> simp [vd_step, hp]
    · rw [ih2]
      cases hp : r.passed <;> simp [vd_step, hp] <;> omega
    · intro name
      rw [ih3 name]
      cases hp : r.passed
      · simp only [vd_step, hp, Bool.false_eq_true, if_false]
        rw [lookup_dictUpdate_isSome]
        simp only [List.mem_cons, hp]
        constructor
        · rintro (⟨rfl | hd⟩ | ⟨r2, hr2, hrp, hrn⟩)
          · exact Or.inr ⟨r, Or.inl rfl, hp, rfl⟩
          · exact Or.inl hd
          · exact Or.inr ⟨r2, Or.inr hr2, hrp, hrn⟩
        · rintro (hd | ⟨r2, hr2 | hr2, hrp, hrn⟩)
          · exact Or.inl (Or.inr hd)
          · exact Or.inl (Or.inl (by rw [← hrn, hr2]))
          · exact Or.inr ⟨r2, hr2, hrp, hrn⟩
      · simp only [vd_step, hp, if_true]
        simp only [List.mem_cons]
        constructor
        · rintro (hd | ⟨r2, hr2, hrp, hrn⟩)
          · exact Or.inl hd
          · exact Or.inr ⟨r2, Or.inr hr2, hrp, hrn⟩
        · rintro (hd | ⟨r2, hr2 | hr2, hrp, hrn⟩)
          · exact Or.inl hd
          · rw [hr2] at hrp
            rw [hp] at hrp
            cases hrp
          · exact Or.inr ⟨r2, hr2, hrp, hrn⟩

/-- The average-metrics pass changes no counter and no `files` entry. -/
theorem vd_finalize_preserves (acc : ValidationResults)
    (results : List WorkerResult) :
    (vd_finalize acc results).summary.total_files = acc.summary.total_files
    ∧ (vd_finalize acc results).summary.passed_files = acc.summary.passed_files
    ∧ (vd_finalize acc results).summary.failed_files = acc.summary.failed_files
    ∧ (vd_finalize acc results).files = acc.files := by
  unfold vd_finalize
  cases hm : ((results.filter (fun r => !r.metrics.isEmpty)).map
      (fun r => r.metrics)).isEmpty <;>
    simp [hm]

/-- C10: `validate_dataset` counts every input file exactly once —
`passed_files + failed_files = total_files`, with `total_files` the
number of inputs — and its `files` mapping has an entry exactly for the
filenames of inputs whose result did not pass (passed files are
omitted). -/
theorem c10_validate_dataset_partition (audio_files : List String)
    (worker : String → WorkerResult) :
    (validate_dataset audio_files worker).summary.passed_files
      + (validate_dataset audio_files worker).summary.failed_files
      = (validate_dataset audio_files worker).summary.total_files
    ∧ (validate_dataset audio_files worker).summary.total_files
      = audio_files.length
    ∧ ∀ name,
        (List.lookup name (validate_dataset audio_files worker).files).isSome = true
        ↔ ∃ f ∈ audio_files, (worker f).passed = false
            ∧ (worker f).filename = name := by
  by_cases h0 : audio_files.length = 0
  · have hnil : audio_files = [] := List.eq_nil_of_length_eq_zero h0
    subst hnil
    refine ⟨rfl, rfl, ?_⟩
    intro name
    simp [validate_dataset]
  · have hvd : validate_dataset audio_files worker
      = vd_finalize (vd_aggregate audio_files.length (audio_files.map worker))
          (audio_files.map worker) := by
      unfold validate_dataset
      rw [if_neg h0]
    obtain ⟨hf1, hf2, hf3, hf4⟩ :=
      vd_finalize_preserves (vd_aggregate audio_files.length (audio_files.map worker))
        (audio_files.map worker)
    obtain ⟨ha1, ha2, ha3⟩ :=
      vd_fold_props (audio_files.map worker)
        { files := [],
          summary := { total_files := audio_files.length, passed_files := 0,
                       failed_files := 0, average_metrics := [] } }
    rw [hvd]
    refine ⟨?_, ?_, ?_⟩
    · rw [hf2, hf3, hf1]
      unfold vd_aggregate
      rw [ha1, ha2]
      simp
    · rw [hf1]
      unfold vd_aggregate
      rw [ha1]
    · intro name
      rw [hf4]
      unfold vd_aggregate
      rw [ha3 name]
      simp only [List.lookup_nil, Option.isSome_none, Bool.false_eq_true, false_or]
      constructor
      · rintro ⟨r, hr, hrp, hrn⟩
        obtain ⟨f, hf, rfl⟩ := List.mem_map.mp hr
        exact ⟨f, hf, hrp, hrn⟩
      · rintro ⟨f, hf, hfp, hfn⟩
        exact ⟨worker f, List.mem_map.mpr ⟨f, hf, rfl⟩, hfp, hfn⟩

/-- Whatever branch `process_file` takes, the state entry of every other
file is untouched (it either leaves the state alone or dict-assigns
`file`). -/
theorem process_file_lookup_ne (st : PState) (fs : String → Option String)
    (proc : String → Except PyErr Unit) (now : Nat) (file phase k : String)
    (hk : k ≠ file) :
    List.lookup k (process_file st fs proc now file phase).2 = List.lookup k st := by
  unfold process_file
  cases hfs : fs file with
  | none => rfl
  | some h0 =>
    cases hnp : needs_processing st fs file phase with
    | error e => rfl
    | ok b =>
      cases b with
      | false => rfl
      | true =>
        cases hp : proc file with
        | error e => rfl
        | ok u =>
          cases u
          simp only
          exact lookup_dictUpdate_ne st k file _ hk

/-- On a file with no stored entry whose hash is computable,
`process_file` returns exactly the success of the processor call. -/
theorem process_file_fresh_result (st : PState) (fs : String → Option String)
    (proc : String → Except PyErr Unit) (now : Nat) (file phase : String)
    (h0 : String) (hlook : List.lookup file st = none) (hfs : fs file = some h0) :
    (process_file st fs proc now file phase).1 = procOk (proc file) := by
  have hnp : needs_processing st fs file phase = .ok true := by
    unfold needs_processing
    rw [hlook]
  unfold process_file
  rw [hfs, hnp]
  cases hp : proc file with
  | error e => simp [procOk, hp]
  | ok u => cases u; simp [procOk, hp]

/-- A batch over pairwise-distinct files none of which has a stored entry
returns, in order, the success of each file's processor call: one
outcome per input, failures isolated to their own slot. -/
theorem process_batch_fresh (fs : String → Option String)
    (proc : String → Except PyErr Unit) (now : Nat) (phase : String) :
    ∀ (files : List String) (st : PState),
      (∀ f ∈ files, List.lookup f st = none) →
      (∀ f ∈ files, (fs f).isSome) →
      files.Nodup →
      (process_batch st fs proc now files phase).1
        = files.map (fun f => procOk (proc f)) := by
  intro files
  induction files with
  | nil => intro st _ _ _; rfl
  | cons f rest ih =>
    intro st hfresh hex hnd
    obtain ⟨h0, hfs⟩ := Option.isSome_iff_exists.mp (hex f (List.mem_cons_self f rest))
    have hstep :
        (process_batch st fs proc now (f :: rest) phase).1
          = (process_file st fs proc now f phase).1
            :: (process_batch (process_file st fs proc now f phase).2
                  fs proc now rest phase).1 := rfl
    rw [hstep, List.map_cons]
    have hhead := process_file_fresh_result st fs proc now f phase h0
      (hfresh f (List.mem_cons_self f rest)) hfs
    rw [hhead]
    have hfresh' : ∀ g ∈ rest,
        List.lookup g (process_file st fs proc now f phase).2 = none := by
      intro g hg
      have hne : g ≠ f := by
        intro heq
        exact (List.nodup_cons.mp hnd).1 (heq ▸ hg)
      rw [process_file_lookup_ne st fs proc now f phase g hne]
      exact hfresh g (List.mem_cons_of_mem f hg)
    rw [ih (process_file st fs proc now f phase).2 hfresh'
      (fun g hg => hex g (List.mem_cons_of_mem f hg)) (List.nodup_cons.mp hnd).2]

/-- C6: in a batch of fresh, pairwise-distinct, existing files where
exactly the K-th file's processor call raises, `process_batch` returns
one outcome per input in input order: the K-th outcome is `false`
(the exception is caught inside `process_file` and never escapes) and
every other outcome is the normal success `true`. -/
theorem c6_batch_single_failure_isolated (st : PState)
    (fs : String → Option String) (proc : String → Except PyErr Unit)
    (now : Nat) (files : List String) (phase : String) (K : Nat)
    (hK : K < files.length) (hnd : files.Nodup)
    (hfresh : ∀ f ∈ files, List.lookup f st = none)
    (hex : ∀ f ∈ files, (fs f).isSome)
    (hfail : procOk (proc (files.get ⟨K, hK⟩)) = false)
    (hsucc : ∀ f ∈ files, f ≠ files.get ⟨K, hK⟩ → procOk (proc f) = true) :
    (process_batch st fs proc now files phase).1.length = files.length
    ∧ (process_batch st fs proc now files phase).1.get? K = some false
    ∧ ∀ i, i < files.length → i ≠ K →
        (process_batch st fs proc now files phase).1.get? i = some true := by
  have hmap := process_batch_fresh fs proc now phase files st hfresh hex hnd
  refine ⟨by rw [hmap]; simp, ?_, ?_⟩
  · rw [hmap, List.get?_map, List.get?_eq_get hK]
    simpa [List.get_eq_getElem] using hfail
  · intro i hi hiK
    rw [hmap, List.get?_map, List.get?_eq_get hi]
    have hne : files.get ⟨i, hi⟩ ≠ files.get ⟨K, hK⟩ := by
      intro heq
      exact hiK (Fin.mk.injEq .. ▸ (hnd.get_inj_iff.mp heq))
    simpa [List.get_eq_getElem] using
      hsucc (files.get ⟨i, hi⟩) (files.get_mem i hi) hne

/-- Witness for C6: three fresh files, the processor raising exactly on
the middle one; the batch yields `[true, false, true]`. -/
theorem c6_batch_single_failure_isolated_witness :
    (process_batch [] (fun _ => some "H")
      (fun f => if f == "b.wav" then .error .valueError else .ok ()) 0
      ["a.wav", "b.wav", "c.wav"] "features").1.length = 3
    ∧ (process_batch [] (fun _ => some "H")
      (fun f => if f == "b.wav" then .error .valueError else .ok ()) 0
      ["a.wav", "b.wav", "c.wav"] "features").1.get? 1 = some false
    ∧ ∀ i, i < 3 → i ≠ 1 →
        (process_batch [] (fun _ => some "H")
          (fun f => if f == "b.wav" then .error .valueError else .ok ()) 0
          ["a.wav", "b.wav", "c.wav"] "features").1.get? i = some true :=
  c6_batch_single_failure_isolated [] (fun _ => some "H")
    (fun f => if f == "b.wav" then .error .valueError else .ok ()) 0
    ["a.wav", "b.wav", "c.wav"] "features" 1 (by decide) (by decide)
    (by decide) (by decide) (by decide) (by decide)

/-- C1: in the spec's concrete scenario (store holds only `a.wav` with
stored hash `H1` and `validated` true; `a.wav` still hashes to `H1`;
`b.wav` hashes to `H2` and has no entry), the claim says all three calls
return, the first one `false`. On the code, `needs_processing(a.wav,
"validated")` looks up the attribute `validated_extracted`, which
`FileState` does not have, so it raises `AttributeError` instead of
returning `false`; the `metadata` call (attribute `metadata_extracted`
exists) and the no-entry call behave as claimed. -/
theorem c1_needs_processing_validated_raises :
    needs_processing [("a.wav", { hash := "H1", last_processed := 0, validated := true })]
      (fun f => if f == "a.wav" then some "H1" else if f == "b.wav" then some "H2" else none)
      "a.wav" "validated" = .error .attributeError
    ∧ needs_processing [("a.wav", { hash := "H1", last_processed := 0, validated := true })]
      (fun f => if f == "a.wav" then some "H1" else if f == "b.wav" then some "H2" else none)
      "a.wav" "metadata" = .ok true
    ∧ needs_processing [("a.wav", { hash := "H1", last_processed := 0, validated := true })]
      (fun f => if f == "a.wav" then some "H1" else if f == "b.wav" then some "H2" else none)
      "b.wav" "validated" = .ok true :=
  ⟨rfl, rfl, rfl⟩

/-- C2: for every file with a stored entry, if the current content hash
differs from the stored `hash`, `needs_processing` returns `true` for
every phase, whatever the stored flags: the hash comparison on line 105
returns before any flag is read. -/
theorem c2_hash_mismatch_forces_processing (st : PState)
    (fs : String → Option String) (file phase : String) (s : FileState)
    (h : String) (hlook : List.lookup file st = some s)
    (hfs : fs file = some h) (hne : h ≠ s.hash) :
    needs_processing st fs file phase = .ok true := by
  unfold needs_processing
  rw [hlook, hfs]
  simp [hne]

/-- Witness for C2: a stored entry with hash `H1` and every flag true,
while the file now hashes to `H2`. -/
theorem c2_hash_mismatch_forces_processing_witness :
    needs_processing
      [("a.wav", { hash := "H1", last_processed := 0, features_extracted := true,
                   standardized := true, validated := true, metadata_extracted := true })]
      (fun f => if f == "a.wav" then some "H2" else none)
      "a.wav" "features" = .ok true :=
  c2_hash_mismatch_forces_processing _ _ _ _ _ "H2" rfl rfl (by decide)

/-- C3: the claim says a successful `process_file` for phase P carries a
previously-true flag of another phase forward only when the recomputed
hash equals the previous entry's hash. On the code, lines 141-144 copy
the old flags unconditionally: here the stored entry has hash `H1` with
`validated` true, the file now hashes to `H2`, and a successful
`process_file` for phase `metadata` stores hash `H2` while still carrying
`validated := true` forward. -/
theorem c3_process_file_copies_stale_flags :
    process_file [("a.wav", { hash := "H1", last_processed := 0, validated := true })]
      (fun f => if f == "a.wav" then some "H2" else none)
      (fun _ => .ok ()) 5 "a.wav" "metadata"
    = (true, [("a.wav", { hash := "H2", last_processed := 5, validated := true,
                          metadata_extracted := true })]) := rfl

/-- C4: the claim says that after a successful `process_file` for phase P
on an unchanged file, `needs_processing(file, P)` returns `false`. For
P = `validated` the first run succeeds and stores `validated := true`,
but the follow-up `needs_processing` call raises `AttributeError`
(attribute `validated_extracted` does not exist) instead of returning
`false`; a second `process_file` run still performs zero processor
invocations, but only because the exception is caught and turned into a
`failed` return (shown with a processor that would fail if invoked). -/
theorem c4_idempotence_broken_for_validated :
    process_file [] (fun f => if f == "a.wav" then some "H1" else none)
      (fun _ => .ok ()) 0 "a.wav" "validated"
    = (true, [("a.wav", { hash := "H1", last_processed := 0, validated := true })])
    ∧ needs_processing [("a.wav", { hash := "H1", last_processed := 0, validated := true })]
      (fun f => if f == "a.wav" then some "H1" else none)
      "a.wav" "validated" = .error .attributeError
    ∧ process_file [("a.wav", { hash := "H1", last_processed := 0, validated := true })]
      (fun f => if f == "a.wav" then some "H1" else none)
      (fun _ => .error .valueError) 1 "a.wav" "validated"
    = (false, [("a.wav", { hash := "H1", last_processed := 0, validated := true })]) :=
  ⟨rfl, rfl, rfl⟩
